import Mathlib

/-!
Shallow embedding of the indicator / forecasting / signal core of the
stock-analyzer backend (src/backend/app.py).

Modelling conventions:
* Floating-point numbers are embedded as rationals (`ℚ`); every value is
  finite, and the pandas/NumPy `NaN` ("missing value") is embedded as
  `none` in `Option ℚ`.  A pandas `Series` becomes `List (Option ℚ)`.
* `round(x, 2)` (Python banker's rounding) becomes `round2`, exact
  half-to-even rounding on `ℚ`.
* Calendar dates are embedded as natural-number day offsets.
-/

/-- Python banker's rounding (round half to even) of a rational to an
integer, as used by `round`. -/
def roundHalfEven (q : ℚ) : ℤ :=
  let f := ⌊q⌋
  let frac := q - f
  if frac < 1/2 then f
  else if 1/2 < frac then f + 1
  else if f % 2 = 0 then f else f + 1

/-- `round(x, 2)`: banker's rounding to two decimal places. -/
def round2 (q : ℚ) : ℚ := (roundHalfEven (q * 100) : ℚ) / 100

/-- `safe_round(value, 2)` from app.py: `None`/NaN (here `none`) maps to
`none`, a finite number is rounded to 2 decimals.  In the `ℚ` embedding
every number is finite, so the NaN/inf guard is exactly the `none` case. -/
def safe_round (v : Option ℚ) : Option ℚ := v.map round2

/-- `safe_float(value, default)` from app.py: `None`/NaN maps to the
default, a finite number to itself. -/
def safe_float (v : Option ℚ) (default : ℚ) : ℚ := v.getD default

/-- `safe_int(value, default)` from app.py: `None` (and NaN, whose `int()`
conversion raises `ValueError`) maps to the default, a number is truncated
toward zero as Python `int()` does. -/
def safe_int (v : Option ℚ) (default : ℤ) : ℤ :=
  match v with
  | none => default
  | some q => if 0 ≤ q then ⌊q⌋ else ⌈q⌉

/-- pandas `Series.rolling(window=w).mean()` (default `min_periods = w`):
entry `i` is the mean of the `w` trailing entries ending at `i`, defined
only when `i ≥ w − 1` and all `w` entries of the window are non-missing. -/
def rollingMean (w : ℕ) (xs : List (Option ℚ)) : List (Option ℚ) :=
  (List.range xs.length).map fun i =>
    if i + 1 < w then none
    else
      let win := (xs.drop (i + 1 - w)).take w
      if win.all Option.isSome then some (win.reduceOption.sum / (w : ℚ)) else none

/-- pandas `Series.diff()`: entry 0 is NaN; entry `i` is `xs[i] - xs[i-1]`,
NaN when either operand is missing. -/
def diffSeries (xs : List (Option ℚ)) : List (Option ℚ) :=
  (List.range xs.length).map fun i =>
    if i = 0 then none
    else
      match xs.getD i none, xs.getD (i - 1) none with
      | some a, some b => some (a - b)
      | _, _ => none

/-- `delta.where(delta > 0, 0)` from calculate_rsi: keep positive deltas,
everything else (including the NaN delta at row 0, whose comparison with 0
is False) is replaced by 0.  Note the result has no missing entries. -/
def gainSeries (xs : List (Option ℚ)) : List (Option ℚ) :=
  (diffSeries xs).map fun d =>
    match d with
    | some v => if 0 < v then some v else some 0
    | none => some 0

/-- `(-delta.where(delta < 0, 0))` from calculate_rsi: absolute value of
negative deltas, 0 elsewhere (NaN deltas included). -/
def lossSeries (xs : List (Option ℚ)) : List (Option ℚ) :=
  (diffSeries xs).map fun d =>
    match d with
    | some v => if v < 0 then some (-v) else some 0
    | none => some 0

/-- `StockAnalyzer.calculate_rsi` (app.py lines 174-189): 14-period rolling
means of gains and losses, zero mean-loss replaced by NaN
(`loss.replace(0, np.nan)`), `rs = gain / loss_safe`,
`rsi = 100 - 100/(1+rs)`; missing values propagate. -/
def calculate_rsi (prices : List (Option ℚ)) (period : ℕ := 14) : List (Option ℚ) :=
  let gain := rollingMean period (gainSeries prices)
  let loss := rollingMean period (lossSeries prices)
  let loss_safe := loss.map fun v =>
    match v with
    | some q => if q = 0 then none else some q
    | none => none
  let rs := List.zipWith (fun g l =>
    match g, l with
    | some g, some l => some (g / l)
    | _, _ => none) gain loss_safe
  rs.map fun r =>
    match r with
    | some v => some (100 - 100 / (1 + v))
    | none => none

/-- length of a rolling mean equals the input length -/
theorem rollingMean_length (w : ℕ) (xs : List (Option ℚ)) :
    (rollingMean w xs).length = xs.length := by
  simp [rollingMean]

theorem diffSeries_length (xs : List (Option ℚ)) :
    (diffSeries xs).length = xs.length := by
  simp [diffSeries]

theorem gainSeries_length (xs : List (Option ℚ)) :
    (gainSeries xs).length = xs.length := by
  simp [gainSeries, diffSeries_length]

theorem lossSeries_length (xs : List (Option ℚ)) :
    (lossSeries xs).length = xs.length := by
  simp [lossSeries, diffSeries_length]

theorem calculate_rsi_length (prices : List (Option ℚ)) (period : ℕ) :
    (calculate_rsi prices period).length = prices.length := by
  simp [calculate_rsi, rollingMean_length, gainSeries_length, lossSeries_length]

/-- Tail of the `adjust=False` exponential moving average recurrence,
continuing from the running value `prev`: each new valid value `v` yields
`v*a + prev*(1-a)`.  A missing input (pandas NaN) leaves the running value
unchanged and is reported as that running value, matching pandas
`ewm(adjust=False).mean()` after the first valid observation (interior-NaN
weighting subtleties of pandas are not exercised by any claim: the price
series the claims quantify over have no missing closes). -/
def ewmFrom (a : ℚ) (prev : ℚ) : List (Option ℚ) → List ℚ
  | [] => []
  | none :: xs => prev :: ewmFrom a prev xs
  | some v :: xs => (v * a + prev * (1 - a)) :: ewmFrom a (v * a + prev * (1 - a)) xs

/-- pandas `Series.ewm(span, adjust=False).mean()` with `a = 2/(span+1)`:
output is missing until the first valid observation, which seeds the
recurrence; from there `ewmFrom` runs. -/
def ewmOpt (a : ℚ) : List (Option ℚ) → List (Option ℚ)
  | [] => []
  | none :: xs => none :: ewmOpt a xs
  | some v :: xs => some v :: (ewmFrom a v xs).map some

/-- Pure version of the EMA recurrence tail on a list with no missing
values. -/
def emaRec (a : ℚ) (prev : ℚ) : List ℚ → List ℚ
  | [] => []
  | v :: xs => (v * a + prev * (1 - a)) :: emaRec a (v * a + prev * (1 - a)) xs

/-- The `adjust=False` EMA on a complete series: seeded with the first
value, then the recurrence. -/
def emaList (a : ℚ) : List ℚ → List ℚ
  | [] => []
  | v :: xs => v :: emaRec a v xs

/-- `StockAnalyzer.calculate_macd` (app.py lines 191-202):
`MACD = EMA(fast) − EMA(slow)` pointwise, `Signal = EMA(signal)` of the
MACD series; smoothing coefficients are `2/(span+1)`. -/
def calculate_macd (prices : List (Option ℚ))
    (fast : ℚ := 12) (slow : ℚ := 26) (sig : ℚ := 9) :
    List (Option ℚ) × List (Option ℚ) :=
  let exp1 := ewmOpt (2 / (fast + 1)) prices
  let exp2 := ewmOpt (2 / (slow + 1)) prices
  let macd := List.zipWith (fun a b =>
    match a, b with
    | some x, some y => some (x - y)
    | _, _ => none) exp1 exp2
  (macd, ewmOpt (2 / (sig + 1)) macd)

/-- The spec's characterisation of the `adjust=false` EMA: same length as
the input, seeded with the first value, and satisfying
`e[i] = v[i]*a + e[i-1]*(1-a)` for every later index. -/
def IsEMA (a : ℚ) (v e : List ℚ) : Prop :=
  e.length = v.length ∧
  (∀ _hv : 0 < v.length, e.getD 0 0 = v.getD 0 0) ∧
  ∀ i, i + 1 < v.length →
    e.getD (i + 1) 0 = v.getD (i + 1) 0 * a + e.getD i 0 * (1 - a)

theorem emaRec_length (a p : ℚ) (l : List ℚ) : (emaRec a p l).length = l.length := by
  induction l generalizing p with
  | nil => rfl
  | cons v xs ih => simp [emaRec, ih]

theorem emaList_length (a : ℚ) (l : List ℚ) : (emaList a l).length = l.length := by
  cases l with
  | nil => rfl
  | cons v xs => simp [emaList, emaRec_length]

/-- On a series with no missing values, `ewmFrom` agrees with the pure
recurrence. -/
theorem ewmFrom_map_some (a p : ℚ) (l : List ℚ) :
    ewmFrom a p (l.map some) = emaRec a p l := by
  induction l generalizing p with
  | nil => rfl
  | cons v xs ih => simp [ewmFrom, emaRec, ih]

/-- On a series with no missing values, the pandas EWM agrees with the
pure `adjust=false` EMA. -/
theorem ewmOpt_map_some (a : ℚ) (l : List ℚ) :
    ewmOpt a (l.map some) = (emaList a l).map some := by
  cases l with
  | nil => rfl
  | cons v xs => simp [ewmOpt, emaList, ewmFrom_map_some]

/-- One raw row of the daily OHLCV series handed to the Indicator Engine
(a row of the pandas frame returned by the data source); numeric cells may
be missing.  Dates are day numbers. -/
structure PriceRow where
  date : ℕ
  openPx : Option ℚ
  high : Option ℚ
  low : Option ℚ
  close : Option ℚ
  volume : Option ℚ
deriving Repr, DecidableEq

/-- One output row of `StockAnalyzer.get_historical_data`: the raw fields
passed through `safe_round`/`safe_int` plus the derived indicator fields. -/
structure IndicatorRow where
  date : ℕ
  openPx : Option ℚ
  high : Option ℚ
  low : Option ℚ
  close : Option ℚ
  volume : ℤ
  ma7 : Option ℚ
  ma20 : Option ℚ
  ma50 : Option ℚ
  rsi : Option ℚ
  macd : Option ℚ
  signal : Option ℚ
deriving Repr, DecidableEq

/-- Default row used with `List.getD`; never reached at in-range indices. -/
def dPriceRow : PriceRow := ⟨0, none, none, none, none, none⟩

/-- Default output row used with `List.getD`. -/
def dIndicatorRow : IndicatorRow :=
  ⟨0, none, none, none, none, 0, none, none, none, none, none, none⟩

/-- `StockAnalyzer.get_historical_data` (app.py lines 123-172): empty input
gives an empty output; otherwise MA7/MA20/MA50 are rolling means of close,
RSI and MACD/Signal come from `calculate_rsi`/`calculate_macd`, and every
numeric field crosses the output boundary through `safe_round`
(volume through `safe_int`). -/
def get_historical_data (rows : List PriceRow) : List IndicatorRow :=
  if rows.isEmpty then []
  else
    let closes := rows.map (·.close)
    let ma7 := rollingMean 7 closes
    let ma20 := rollingMean 20 closes
    let ma50 := rollingMean 50 closes
    let rsi := calculate_rsi closes
    let macd_result := calculate_macd closes
    (List.range rows.length).map fun i =>
      let r := rows.getD i dPriceRow
      { date := r.date
        openPx := safe_round r.openPx
        high := safe_round r.high
        low := safe_round r.low
        close := safe_round r.close
        volume := safe_int r.volume 0
        ma7 := safe_round (ma7.getD i none)
        ma20 := safe_round (ma20.getD i none)
        ma50 := safe_round (ma50.getD i none)
        rsi := safe_round (rsi.getD i none)
        macd := safe_round (macd_result.1.getD i none)
        signal := safe_round (macd_result.2.getD i none) }

/-- The arithmetic mean of the `w` trailing values ending at index `i` of a
complete close series (the spec's description of the `w`-day moving
average). -/
def trailingMean (w : ℕ) (closes : List ℚ) (i : ℕ) : ℚ :=
  ((closes.drop (i + 1 - w)).take w).sum / (w : ℚ)

/-- Result record of `StockAnalyzer.get_sentiment_signal`. -/
structure SignalResult where
  signal : String
  strength : ℚ
  rsi : Option ℚ
  price_vs_ma20 : Option ℚ
deriving Repr, DecidableEq

/-- `current_price = safe_float(df['Close'].iloc[-1])`. -/
def currentClose (closes : List (Option ℚ)) : ℚ :=
  safe_float (closes.getLastD none) 0

/-- `ma20 = safe_float(df['Close'].rolling(window=20).mean().iloc[-1])`. -/
def ma20Last (closes : List (Option ℚ)) : ℚ :=
  safe_float ((rollingMean 20 closes).getLastD none) 0

/-- `rsi = safe_float(rsi_series.iloc[-1], 50)`: last RSI value with
fallback 50 when it is missing. -/
def rsiLast (closes : List (Option ℚ)) : ℚ :=
  safe_float ((calculate_rsi closes).getLastD none) 50

/-- The signal score of `get_sentiment_signal` (app.py lines 304-316):
start at 0, add 1 if the current close is strictly above MA20 else
subtract 1, then add 2 if RSI < 30 or subtract 2 if RSI > 70. -/
def signalScore (closes : List (Option ℚ)) : ℤ :=
  (if ma20Last closes < currentClose closes then 1 else -1) +
    (if rsiLast closes < 30 then 2 else if 70 < rsiLast closes then -2 else 0)

/-- `StockAnalyzer.get_sentiment_signal` (app.py lines 284-351) on the
close column of the fetched month of history.  Fewer than 20 rows gives the
degenerate HOLD result; otherwise the score is mapped to a label and
strength and the RSI and price-vs-MA20 deviation are reported rounded.
The `except` fallback (same degenerate record) is unreachable in this
total embedding. -/
def get_sentiment_signal (closes : List (Option ℚ)) : SignalResult :=
  if closes.length < 20 then ⟨"HOLD", 0, none, none⟩
  else
    let current_price := currentClose closes
    let ma20 := ma20Last closes
    let rsi := rsiLast closes
    let score := signalScore closes
    let labelStrength : String × ℚ :=
      if 2 ≤ score then ("STRONG BUY", min 100 ((score : ℚ) / 3 * 100))
      else if score = 1 then ("BUY", 60)
      else if score = -1 then ("SELL", 60)
      else if score ≤ -2 then ("STRONG SELL", min 100 (|(score : ℚ) / 3| * 100))
      else ("HOLD", 50)
    let price_vs_ma20 : ℚ :=
      if ma20 ≠ 0 then ((current_price - ma20) / ma20) * 100 else 0
    { signal := labelStrength.1
      strength := round2 labelStrength.2
      rsi := some (round2 rsi)
      price_vs_ma20 := some (round2 price_vs_ma20) }

/-- One raw row of the 6-month history used by `predict_prices`; only the
columns the forecaster reads (Close and Volume) are modelled, with missing
cells as `none`.  The remaining OHLC columns are taken as present, which
only shrinks the set of rows `dropna` removes and is not exercised by any
claim. -/
structure PredRow where
  close : Option ℚ
  volume : Option ℚ
deriving Repr, DecidableEq

/-- One forecast point: a calendar date (day offset) and a predicted
price. -/
structure ForecastPoint where
  date : ℕ
  predictedPrice : Option ℚ
deriving Repr, DecidableEq

/-- The record returned by a successful `predict_prices`. -/
structure ForecastResult where
  predictions : List ForecastPoint
  confidence : Option ℚ
  model : String
deriving Repr, DecidableEq

/-- The rows surviving `df.dropna()` after the `Days` index and the 5-day
moving average `MA5` are added (app.py lines 215-218), as tuples
`(Days, Volume, MA5, Close)`.  A row survives exactly when its close, its
volume and its 5-day moving average are all defined. -/
def cleanRows (rows : List PredRow) : List (ℚ × ℚ × ℚ × ℚ) :=
  let ma5 := rollingMean 5 (rows.map (·.close))
  (List.range rows.length).filterMap fun i =>
    match (rows.getD i ⟨none, none⟩).close, (rows.getD i ⟨none, none⟩).volume,
        ma5.getD i none with
    | some c, some v, some m => some ((i : ℚ), v, m, c)
    | _, _, _ => none

/-- Smallest element of a list (0 for an empty one). -/
def listMin : List ℚ → ℚ
  | [] => 0
  | x :: xs => xs.foldl min x

/-- Largest element of a list (0 for an empty one). -/
def listMax : List ℚ → ℚ
  | [] => 0
  | x :: xs => xs.foldl max x

/-- An sklearn `MinMaxScaler` fitted on one column: the observed minimum
and the zero-handled range (`_handle_zeros_in_scale` turns a zero data
range into 1). -/
structure Scaler where
  dmin : ℚ
  dscale : ℚ
deriving Repr, DecidableEq

/-- `MinMaxScaler().fit` on one column. -/
def fitScaler (xs : List ℚ) : Scaler :=
  let mn := listMin xs
  let mx := listMax xs
  ⟨mn, if mx - mn = 0 then 1 else mx - mn⟩

/-- `MinMaxScaler.transform` on one value. -/
def Scaler.transform (s : Scaler) (x : ℚ) : ℚ := (x - s.dmin) / s.dscale

/-- `MinMaxScaler.inverse_transform` on one value. -/
def Scaler.inverse (s : Scaler) (x : ℚ) : ℚ := x * s.dscale + s.dmin

/-- A fitted linear model `y ≈ w1*x1 + w2*x2 + w3*x3 + b`. -/
structure LinModel where
  w1 : ℚ
  w2 : ℚ
  w3 : ℚ
  b : ℚ
deriving Repr, DecidableEq

/-- Solve a 3×3 linear system by Cramer's rule; a singular system yields
the zero vector (the claims never depend on the weights a rank-deficient
fit produces). -/
def solve3 (a11 a12 a13 a21 a22 a23 a31 a32 a33 b1 b2 b3 : ℚ) : ℚ × ℚ × ℚ :=
  let det := a11 * (a22 * a33 - a23 * a32) - a12 * (a21 * a33 - a23 * a31) +
    a13 * (a21 * a32 - a22 * a31)
  if det = 0 then (0, 0, 0)
  else
    (( b1 * (a22 * a33 - a23 * a32) - a12 * (b2 * a33 - a23 * b3) +
        a13 * (b2 * a32 - a22 * b3)) / det,
     (a11 * (b2 * a33 - a23 * b3) - b1 * (a21 * a33 - a23 * a31) +
        a13 * (a21 * b3 - b2 * a31)) / det,
     (a11 * (a22 * b3 - b2 * a32) - a12 * (a21 * b3 - b2 * a31) +
        b1 * (a21 * a32 - a22 * a31)) / det)

/-- `LinearRegression().fit` on three features with intercept: the
ordinary least-squares normal equations on centred data (the mathematical
definition of the sklearn call at app.py lines 241-242). -/
def fitLinReg (xs : List (ℚ × ℚ × ℚ)) (ys : List ℚ) : LinModel :=
  if xs.length = 0 then ⟨0, 0, 0, 0⟩
  else
    let n : ℚ := xs.length
    let m1 := (xs.map (·.1)).sum / n
    let m2 := (xs.map (·.2.1)).sum / n
    let m3 := (xs.map (·.2.2)).sum / n
    let my := ys.sum / n
    let c1 := xs.map fun x => x.1 - m1
    let c2 := xs.map fun x => x.2.1 - m2
    let c3 := xs.map fun x => x.2.2 - m3
    let cy := ys.map fun y => y - my
    let dot := fun (u v : List ℚ) => (List.zipWith (· * ·) u v).sum
    let (w1, w2, w3) := solve3 (dot c1 c1) (dot c1 c2) (dot c1 c3)
      (dot c2 c1) (dot c2 c2) (dot c2 c3)
      (dot c3 c1) (dot c3 c2) (dot c3 c3)
      (dot c1 cy) (dot c2 cy) (dot c3 cy)
    ⟨w1, w2, w3, my - (w1 * m1 + w2 * m2 + w3 * m3)⟩

/-- `model.predict` on one feature triple. -/
def LinModel.predict (M : LinModel) (x : ℚ × ℚ × ℚ) : ℚ :=
  M.w1 * x.1 + M.w2 * x.2.1 + M.w3 * x.2.2 + M.b

/-- sklearn `r2_score`: `1 − SSres/SStot`, with the constant-target
convention (zero `SStot` gives 1 when `SSres` is also zero, else 0). -/
def r2_score (ytrue ypred : List ℚ) : ℚ :=
  let my := ytrue.sum / (ytrue.length : ℚ)
  let ssTot := (ytrue.map fun y => (y - my) ^ 2).sum
  let ssRes := (List.zipWith (fun a b => (a - b) ^ 2) ytrue ypred).sum
  if ssTot = 0 then (if ssRes = 0 then 1 else 0) else 1 - ssRes / ssTot

/-- The prediction loop of `predict_prices` (app.py lines 249-267):
step `i` builds the feature vector `(lastDay + i, lastVol, running MA5)`,
scales it with the training scalers, predicts, inverts the target scaler,
and feeds the prediction back into the running moving average as
`(ma*4 + pred)/5`; the point carries date `today + i` and the price
rounded to 2 decimals. -/
def forecastAux (M : LinModel) (sD sV sM sy : Scaler) (lastDay : ℕ)
    (lastVol : ℚ) (today : ℕ) : ℕ → ℕ → ℚ → List ForecastPoint
  | _, 0, _ => []
  | i, steps + 1, ma =>
    let fd : ℚ := ((lastDay + i : ℕ) : ℚ)
    let x := (sD.transform fd, sV.transform lastVol, sM.transform ma)
    let pred_price := sy.inverse (M.predict x)
    ⟨today + i, some (round2 pred_price)⟩ ::
      forecastAux M sD sV sM sy lastDay lastVol today (i + 1) steps
        ((ma * 4 + pred_price) / 5)

/-- `StockAnalyzer.predict_prices` (app.py lines 204-282): require 30 raw
rows, add `Days` and `MA5`, drop incomplete rows, require 20 clean rows,
min-max scale the three features and the target, fit ordinary least
squares, run the feedback prediction loop for `days` steps, and report the
training-set R² clamped to [0,100] as confidence.  (The NaN re-check at
lines 229-231 is vacuous after `dropna` and has no effect here; `today`
embeds `datetime.now()`.) -/
def predict_prices (today : ℕ) (rows : List PredRow) (days : ℕ) :
    Option ForecastResult :=
  if rows.length < 30 then none
  else
    let cleaned := cleanRows rows
    if cleaned.length < 20 then none
    else
      let X := cleaned.map fun r => (r.1, r.2.1, r.2.2.1)
      let y := cleaned.map fun r => r.2.2.2
      let sD := fitScaler (X.map (·.1))
      let sV := fitScaler (X.map (·.2.1))
      let sM := fitScaler (X.map (·.2.2))
      let sy := fitScaler y
      let Xs := X.map fun x => (sD.transform x.1, sV.transform x.2.1, sM.transform x.2.2)
      let ys := y.map sy.transform
      let M := fitLinReg Xs ys
      let last_day := cleaned.length
      let last_volume := safe_float (some ((X.map (·.2.1)).getLastD 0)) 0
      let last_ma5 := safe_float (some ((X.map (·.2.2)).getLastD 0)) 0
      let predictions := forecastAux M sD sV sM sy last_day last_volume today 1 days last_ma5
      let y_pred := Xs.map M.predict
      let confidence := r2_score ys y_pred
      let confidence_pct := max 0 (min 100 (confidence * 100))
      some ⟨predictions, safe_round (some confidence_pct), "Linear Regression"⟩

theorem getD_range_map {α : Type} (f : ℕ → α) (n i : ℕ) (d : α) (hi : i < n) :
    ((List.range n).map f).getD i d = f i := by
  rw [List.getD_eq_getElem _ _ (by simpa using hi)]
  simp

theorem getD_map_of_lt {α β : Type} (f : α → β) (l : List α) (i : ℕ) (d : β)
    (d' : α) (hi : i < l.length) :
    (l.map f).getD i d = f (l.getD i d') := by
  rw [List.getD_eq_getElem _ _ (by simpa using hi), List.getD_eq_getElem _ _ hi]
  simp

theorem getD_zipWith_of_lt {α β γ : Type} (f : α → β → γ) (as : List α)
    (bs : List β) (i : ℕ) (d : γ) (da : α) (db : β)
    (ha : i < as.length) (hb : i < bs.length) :
    (List.zipWith f as bs).getD i d = f (as.getD i da) (bs.getD i db) := by
  rw [List.getD_eq_getElem _ _ (by simp only [List.length_zipWith]; omega),
    List.getD_eq_getElem _ _ ha, List.getD_eq_getElem _ _ hb]
  exact List.getElem_zipWith

theorem reduceOption_map_some (l : List ℚ) : (l.map some).reduceOption = l := by
  induction l with
  | nil => rfl
  | cons x xs ih => simp [List.reduceOption_cons_of_some, ih]

/-- Below its window, a rolling mean is missing. -/
theorem rollingMean_getD_early (w : ℕ) (xs : List (Option ℚ)) (i : ℕ)
    (hi : i < xs.length) (hw : i + 1 < w) :
    (rollingMean w xs).getD i none = none := by
  unfold rollingMean
  rw [getD_range_map _ _ _ _ hi]
  simp [hw]

/-- The RSI series is missing strictly below index `period − 1`: the
rolling mean of gains has no value there. -/
theorem calculate_rsi_getD_early (prices : List (Option ℚ)) (i : ℕ)
    (hi : i < prices.length) (hw : i + 1 < 14) :
    (calculate_rsi prices).getD i none = none := by
  unfold calculate_rsi
  have hg : i < (rollingMean 14 (gainSeries prices)).length := by
    simpa [rollingMean_length, gainSeries_length] using hi
  have hl : i < ((rollingMean 14 (lossSeries prices)).map fun v =>
      match v with
      | some q => if q = 0 then none else some q
      | none => none).length := by
    simpa [rollingMean_length, lossSeries_length] using hi
  rw [getD_map_of_lt _ _ i none none (by simp only [List.length_zipWith]; omega),
    getD_zipWith_of_lt _ _ _ i none none none hg hl,
    rollingMean_getD_early 14 _ i (by simpa [gainSeries_length] using hi) hw]

/-- When the 14-period mean of losses is exactly zero, the `replace(0,
NaN)` step erases it and the RSI of that row is missing. -/
theorem calculate_rsi_getD_zero_loss (prices : List (Option ℚ)) (i : ℕ)
    (hi : i < prices.length)
    (hzero : (rollingMean 14 (lossSeries prices)).getD i none = some 0) :
    (calculate_rsi prices).getD i none = none := by
  unfold calculate_rsi
  have hg : i < (rollingMean 14 (gainSeries prices)).length := by
    simpa [rollingMean_length, gainSeries_length] using hi
  have hl : i < ((rollingMean 14 (lossSeries prices)).map fun v =>
      match v with
      | some q => if q = 0 then none else some q
      | none => none).length := by
    simpa [rollingMean_length, lossSeries_length] using hi
  rw [getD_map_of_lt _ _ i none none (by simp only [List.length_zipWith]; omega),
    getD_zipWith_of_lt _ _ _ i none none none hg hl,
    getD_map_of_lt _ _ i none none (by simpa [rollingMean_length, lossSeries_length] using hi),
    hzero]
  cases (rollingMean 14 (gainSeries prices)).getD i none <;> rfl

/-- The Signal Classifier's flat fixture: close is flat at 100 for 25
days. -/
def flatCloses25 : List (Option ℚ) := List.replicate 25 (some 100)

/-- C1 counterexample: on the flat-100-for-25-days fixture the classifier
does not return HOLD with strength 50 — the close equals MA20, the strict
comparison fails, the score is −1 and the label is SELL. -/
theorem c1_flat_fixture_not_hold :
    ¬ ((get_sentiment_signal flatCloses25).signal = "HOLD" ∧
      (get_sentiment_signal flatCloses25).strength = 50) := by
  with_unfolding_all decide

/-- C1 (amended): on the flat-100-for-25-days fixture MA20 is 100 and the
classifier returns SELL with strength 60 — the RSI fallback of 50 and the
zero price/MA delta leave the score at −1 (the flat close equals MA20 and
is not strictly above it), while the reported price deviation is 0 and the
reported RSI is the fallback 50. -/
theorem c1_flat_fixture_sell :
    ma20Last flatCloses25 = 100 ∧
      get_sentiment_signal flatCloses25 = ⟨"SELL", 60, some 50, some 0⟩ := by
  with_unfolding_all decide

/-- 14 price rows whose closes are 100, 99, then twelve 100s: one losing
and one gaining day among the first deltas. -/
def c2Rows : List PriceRow :=
  ([100, 99] ++ List.replicate 12 (100 : ℚ)).map fun c =>
    ⟨0, none, none, none, some c, none⟩

/-- C2 counterexample: the Indicator Engine's RSI field can already be
defined at row index 13 — on `c2Rows` the 14-window rolling means of gains
and losses are both defined there (the NaN delta of row 0 was coerced to a
zero gain and a zero loss by the `where` clauses), giving RSI 50. -/
theorem c2_rsi_defined_at_13 :
    (get_historical_data c2Rows).length = 14 ∧
      ((get_historical_data c2Rows).getD 13 dIndicatorRow).rsi = some 50 := by
  with_unfolding_all decide

/-- C2 (amended): the RSI field produced by the Indicator Engine is absent
for the first 13 rows (indices 0 through 12) of every price series; the
earliest row that can carry a defined RSI value is row index 13. -/
theorem c2_rsi_absent_first_13 (rows : List PriceRow) (i : ℕ)
    (h13 : i < 13) (hi : i < rows.length) :
    ((get_historical_data rows).getD i dIndicatorRow).rsi = none := by
  have hne : rows.isEmpty = false := by
    cases rows
    · simp at hi
    · rfl
  unfold get_historical_data
  rw [if_neg (by simp [hne]), getD_range_map _ _ _ _ hi]
  show safe_round ((calculate_rsi (rows.map PriceRow.close)).getD i none) = none
  rw [calculate_rsi_getD_early _ i (by simpa using hi) (by omega)]
  rfl

/-- C2 amended-claim witness at row 5 of the 14-row fixture. -/
theorem c2_rsi_absent_first_13_witness :
    (5 < 13 ∧ 5 < c2Rows.length) ∧
      ((get_historical_data c2Rows).getD 5 dIndicatorRow).rsi = none :=
  ⟨by decide, c2_rsi_absent_first_13 c2Rows 5 (by decide) (by decide)⟩

/-- C5: whenever the 14-period mean of losses of the close series is
exactly zero at a row, the RSI field of that output row is absent rather
than 100 — the zero mean-loss is replaced by a missing value before the
relative-strength division. -/
theorem c5_rsi_absent_on_zero_loss (rows : List PriceRow) (i : ℕ)
    (hi : i < rows.length)
    (hzero : (rollingMean 14 (lossSeries (rows.map PriceRow.close))).getD i none
      = some 0) :
    ((get_historical_data rows).getD i dIndicatorRow).rsi = none := by
  have hne : rows.isEmpty = false := by
    cases rows
    · simp at hi
    · rfl
  unfold get_historical_data
  rw [if_neg (by simp [hne]), getD_range_map _ _ _ _ hi]
  show safe_round ((calculate_rsi (rows.map PriceRow.close)).getD i none) = none
  rw [calculate_rsi_getD_zero_loss _ i (by simpa using hi) hzero]
  rfl

/-- 14 price rows with a flat close of 100: every loss is zero. -/
def flatRows14 : List PriceRow :=
  (List.replicate 14 (100 : ℚ)).map fun c => ⟨0, none, none, none, some c, none⟩

/-- C5 witness: on a flat 14-row series the mean loss at row 13 is exactly
zero and the RSI of that row is absent. -/
theorem c5_rsi_absent_on_zero_loss_witness :
    (13 < flatRows14.length ∧
      (rollingMean 14 (lossSeries (flatRows14.map PriceRow.close))).getD 13 none
        = some 0) ∧
      ((get_historical_data flatRows14).getD 13 dIndicatorRow).rsi = none :=
  ⟨by with_unfolding_all decide,
    c5_rsi_absent_on_zero_loss flatRows14 13 (by decide) (by with_unfolding_all decide)⟩

/-- C8: for every close series shorter than 20 rows the Signal Classifier
returns the degenerate result — HOLD, strength 0, absent RSI and absent
price deviation — and, being a total function, raises no error. -/
theorem c8_short_series_hold (closes : List (Option ℚ))
    (h : closes.length < 20) :
    get_sentiment_signal closes = ⟨"HOLD", 0, none, none⟩ := by
  simp [get_sentiment_signal, h]

/-- C8 witness on the empty series. -/
theorem c8_short_series_hold_witness :
    ([] : List (Option ℚ)).length < 20 ∧
      get_sentiment_signal [] = ⟨"HOLD", 0, none, none⟩ :=
  ⟨by decide, c8_short_series_hold [] (by decide)⟩

/-- The score always lands in {−3, −1, 1, 3}: exactly one of the ±1
price-vs-MA20 adjustments applies and the RSI adjustment is +2, −2 or 0. -/
theorem signalScore_cases (closes : List (Option ℚ)) :
    signalScore closes = 3 ∨ signalScore closes = 1 ∨
      signalScore closes = -1 ∨ signalScore closes = -3 := by
  unfold signalScore
  split_ifs <;> norm_num

theorem round2_sixty : round2 60 = 60 := by with_unfolding_all decide

theorem round2_hundred : round2 100 = 100 := by with_unfolding_all decide

/-- C10: with at least 20 rows, the classifier's score is one of −3, −1,
1, 3; consequently the non-degenerate branch never returns HOLD and the
returned strength is always 60 or 100. -/
theorem c10_score_never_zero (closes : List (Option ℚ)) (h : 20 ≤ closes.length) :
    (signalScore closes = 3 ∨ signalScore closes = 1 ∨
      signalScore closes = -1 ∨ signalScore closes = -3) ∧
    (get_sentiment_signal closes).signal ≠ "HOLD" ∧
    ((get_sentiment_signal closes).strength = 60 ∨
      (get_sentiment_signal closes).strength = 100) := by
  have hs := signalScore_cases closes
  refine ⟨hs, ?_⟩
  unfold get_sentiment_signal
  rw [if_neg (by omega)]
  rcases hs with h3 | h1 | hm1 | hm3
  · rw [h3]
    norm_num
    constructor
    · decide
    · exact Or.inr round2_hundred
  · rw [h1]
    norm_num
    exact ⟨by decide, Or.inl round2_sixty⟩
  · rw [hm1]
    norm_num
    exact ⟨by decide, Or.inl round2_sixty⟩
  · rw [hm3]
    norm_num
    constructor
    · decide
    · exact Or.inr round2_hundred

/-- C10 witness on a flat 20-row series (score −1, label SELL, strength
60). -/
theorem c10_score_never_zero_witness :
    20 ≤ (List.replicate 20 (some (100 : ℚ))).length ∧
      ((signalScore (List.replicate 20 (some (100 : ℚ))) = 3 ∨
        signalScore (List.replicate 20 (some (100 : ℚ))) = 1 ∨
        signalScore (List.replicate 20 (some (100 : ℚ))) = -1 ∨
        signalScore (List.replicate 20 (some (100 : ℚ))) = -3) ∧
      (get_sentiment_signal (List.replicate 20 (some (100 : ℚ)))).signal ≠ "HOLD" ∧
      ((get_sentiment_signal (List.replicate 20 (some (100 : ℚ)))).strength = 60 ∨
        (get_sentiment_signal (List.replicate 20 (some (100 : ℚ)))).strength = 100)) :=
  ⟨by decide, c10_score_never_zero (List.replicate 20 (some 100)) (by decide)⟩

/-- The close column of a price series whose closes are all present. -/
def closeVals (rows : List PriceRow) : List ℚ :=
  rows.map fun r => r.close.getD 0

theorem closeVals_length (rows : List PriceRow) :
    (closeVals rows).length = rows.length := by
  simp [closeVals]

/-- When every close is present, the close column is the `some`-image of
`closeVals`. -/
theorem map_close_eq (rows : List PriceRow)
    (hall : ∀ r ∈ rows, r.close.isSome) :
    rows.map PriceRow.close = (closeVals rows).map some := by
  induction rows with
  | nil => rfl
  | cons r rs ih =>
    obtain ⟨v, hv⟩ := Option.isSome_iff_exists.mp (hall r (List.mem_cons_self r rs))
    have tail := ih fun x hx => hall x (List.mem_cons_of_mem r hx)
    simp only [closeVals, List.map_cons, hv, Option.getD_some] at *
    exact congrArg (List.cons (some v)) tail

/-- On a complete series, the rolling mean at index `i` is missing below
the window and otherwise equals the trailing mean. -/
theorem rollingMean_map_some (w : ℕ) (l : List ℚ) (i : ℕ) (hi : i < l.length) :
    (rollingMean w (l.map some)).getD i none =
      if i + 1 < w then none else some (trailingMean w l i) := by
  unfold rollingMean
  rw [getD_range_map _ _ _ _ (by simpa using hi)]
  by_cases hw : i + 1 < w
  · simp [hw]
  · rw [if_neg hw, if_neg hw]
    have hwin : ((l.map some).drop (i + 1 - w)).take w =
        ((l.drop (i + 1 - w)).take w).map some := by
      rw [← List.map_drop, ← List.map_take]
    simp only [hwin, reduceOption_map_some]
    simp [List.all_map, Function.comp, trailingMean]
    intro hmem
    rw [hwin] at hmem
    obtain ⟨a, -, ha⟩ := List.mem_map.mp hmem
    exact Option.some_ne_none a ha

/-- C3: for a price series with all closes present, the `w`-day moving
average field of output row `i` is absent when `i < w − 1` and otherwise
equals the arithmetic mean of the `w` trailing closes ending at row `i`,
rounded to 2 decimals only at the output boundary, for each
`w ∈ {7, 20, 50}`. -/
theorem c3_moving_average_fields (rows : List PriceRow)
    (hall : ∀ r ∈ rows, r.close.isSome) (i : ℕ) (hi : i < rows.length) :
    (((get_historical_data rows).getD i dIndicatorRow).ma7 =
      if i + 1 < 7 then none else some (round2 (trailingMean 7 (closeVals rows) i))) ∧
    (((get_historical_data rows).getD i dIndicatorRow).ma20 =
      if i + 1 < 20 then none else some (round2 (trailingMean 20 (closeVals rows) i))) ∧
    (((get_historical_data rows).getD i dIndicatorRow).ma50 =
      if i + 1 < 50 then none else some (round2 (trailingMean 50 (closeVals rows) i))) := by
  have hne : rows.isEmpty = false := by
    cases rows
    · simp at hi
    · rfl
  have hmap := map_close_eq rows hall
  have hlen : i < (closeVals rows).length := by
    rw [closeVals_length]
    exact hi
  unfold get_historical_data
  rw [if_neg (by simp [hne]), getD_range_map _ _ _ _ hi]
  refine ⟨?_, ?_, ?_⟩
  · show safe_round ((rollingMean 7 (rows.map PriceRow.close)).getD i none) = _
    rw [hmap, rollingMean_map_some 7 _ i hlen]
    by_cases hw : i + 1 < 7 <;> simp [hw, safe_round]
  · show safe_round ((rollingMean 20 (rows.map PriceRow.close)).getD i none) = _
    rw [hmap, rollingMean_map_some 20 _ i hlen]
    by_cases hw : i + 1 < 20 <;> simp [hw, safe_round]
  · show safe_round ((rollingMean 50 (rows.map PriceRow.close)).getD i none) = _
    rw [hmap, rollingMean_map_some 50 _ i hlen]
    by_cases hw : i + 1 < 50 <;> simp [hw, safe_round]

/-- Seven price rows with closes 10, 20, …, 70. -/
def c3Rows : List PriceRow :=
  ([10, 20, 30, 40, 50, 60, 70] : List ℚ).map fun c =>
    ⟨0, none, none, none, some c, none⟩

/-- C3 witness at row 6 of a 7-row fixture: the 7-day window is exactly
satisfied there while the 20- and 50-day fields are absent. -/
theorem c3_moving_average_fields_witness :
    ((∀ r ∈ c3Rows, r.close.isSome) ∧ 6 < c3Rows.length) ∧
      ((((get_historical_data c3Rows).getD 6 dIndicatorRow).ma7 =
        if 6 + 1 < 7 then none else some (round2 (trailingMean 7 (closeVals c3Rows) 6))) ∧
      (((get_historical_data c3Rows).getD 6 dIndicatorRow).ma20 =
        if 6 + 1 < 20 then none else some (round2 (trailingMean 20 (closeVals c3Rows) 6))) ∧
      (((get_historical_data c3Rows).getD 6 dIndicatorRow).ma50 =
        if 6 + 1 < 50 then none else some (round2 (trailingMean 50 (closeVals c3Rows) 6)))) :=
  ⟨⟨by decide, by decide⟩, c3_moving_average_fields c3Rows (by decide) 6 (by decide)⟩

/-- The MACD line on a complete close series:
`EMA(12) − EMA(26)` pointwise. -/
def macdPure (closes : List ℚ) : List ℚ :=
  List.zipWith (· - ·) (emaList (2 / 13) closes) (emaList (2 / 27) closes)

theorem zipWith_sub_map_some (u v : List ℚ) :
    List.zipWith (fun a b =>
      match a, b with
      | some x, some y => some (x - y)
      | _, _ => none) (u.map some) (v.map some) =
      (List.zipWith (fun x y => x - y) u v).map some := by
  induction u generalizing v with
  | nil => rfl
  | cons x xs ih =>
    cases v with
    | nil => rfl
    | cons y ys => simp [ih]

theorem emaRec_getD_succ (a p : ℚ) (xs : List ℚ) (i : ℕ)
    (hi : i + 1 < xs.length) :
    (emaRec a p xs).getD (i + 1) 0 =
      xs.getD (i + 1) 0 * a + (emaRec a p xs).getD i 0 * (1 - a) := by
  induction xs generalizing p i with
  | nil => simp at hi
  | cons v ys ih =>
    cases i with
    | zero =>
      cases ys with
      | nil => simp at hi
      | cons w zs => simp [emaRec]
    | succ j =>
      have hj : j + 1 < ys.length := by simpa using hi
      simpa [emaRec] using ih (v * a + p * (1 - a)) j hj

/-- `emaList` satisfies the spec's seed-plus-recurrence characterisation
of the `adjust=false` EMA. -/
theorem emaList_isEMA (a : ℚ) (l : List ℚ) : IsEMA a l (emaList a l) := by
  refine ⟨emaList_length a l, ?_, ?_⟩
  · intro hl
    cases l with
    | nil => simp at hl
    | cons v xs => simp [emaList]
  · intro i hi
    cases l with
    | nil => simp at hi
    | cons v xs =>
      cases i with
      | zero =>
        cases xs with
        | nil => simp at hi
        | cons w zs => simp [emaList, emaRec]
      | succ j =>
        have hj : j + 1 < xs.length := by simpa using hi
        simpa [emaList] using emaRec_getD_succ a v xs j hj

theorem macdPure_length (closes : List ℚ) :
    (macdPure closes).length = closes.length := by
  simp [macdPure, emaList_length]

/-- C4: on a non-empty complete close series, MACD and Signal are defined
from row 0 onward (they are the `some`-image of total sequences of the
input's length); `MACD = EMA(12) − EMA(26)` pointwise, `Signal` is the
EMA(9) of the MACD sequence, and each EMA involved satisfies the seeded
`ema[i] = value[i]*α + ema[i-1]*(1-α)` recurrence with `α = 2/(span+1)`. -/
theorem c4_macd_signal_recurrence (closes : List ℚ) (_h : closes ≠ []) :
    (calculate_macd (closes.map some)).1 = (macdPure closes).map some ∧
    (calculate_macd (closes.map some)).2 =
      (emaList (1 / 5) (macdPure closes)).map some ∧
    (macdPure closes).length = closes.length ∧
    (∀ i, i < closes.length → (macdPure closes).getD i 0 =
      (emaList (2 / 13) closes).getD i 0 - (emaList (2 / 27) closes).getD i 0) ∧
    IsEMA (2 / 13) closes (emaList (2 / 13) closes) ∧
    IsEMA (2 / 27) closes (emaList (2 / 27) closes) ∧
    IsEMA (1 / 5) (macdPure closes) (emaList (1 / 5) (macdPure closes)) := by
  have h12 : (2 : ℚ) / (12 + 1) = 2 / 13 := by norm_num
  have h26 : (2 : ℚ) / (26 + 1) = 2 / 27 := by norm_num
  have h9 : (2 : ℚ) / (9 + 1) = 1 / 5 := by norm_num
  have hmacd : (calculate_macd (closes.map some)).1 = (macdPure closes).map some := by
    show List.zipWith _ (ewmOpt ((2 : ℚ) / (12 + 1)) (closes.map some))
        (ewmOpt ((2 : ℚ) / (26 + 1)) (closes.map some)) = _
    rw [h12, h26, ewmOpt_map_some, ewmOpt_map_some, zipWith_sub_map_some]
    rfl
  refine ⟨hmacd, ?_, macdPure_length closes, ?_, emaList_isEMA _ _,
    emaList_isEMA _ _, emaList_isEMA _ _⟩
  · show ewmOpt ((2 : ℚ) / (9 + 1)) (calculate_macd (closes.map some)).1 =
      (emaList (1 / 5) (macdPure closes)).map some
    rw [hmacd, h9, ewmOpt_map_some]
  · intro i hi
    have h1 : i < (emaList ((2 : ℚ) / 13) closes).length := by
      rw [emaList_length]; exact hi
    have h2 : i < (emaList ((2 : ℚ) / 27) closes).length := by
      rw [emaList_length]; exact hi
    exact getD_zipWith_of_lt (fun x y => x - y) _ _ i 0 0 0 h1 h2

/-- C4 witness on the two-point series `[1, 2]`. -/
theorem c4_macd_signal_recurrence_witness :
    (([1, 2] : List ℚ) ≠ []) ∧
      (calculate_macd (([1, 2] : List ℚ).map some)).1 =
        (macdPure [1, 2]).map some :=
  ⟨by decide, (c4_macd_signal_recurrence [1, 2] (by decide)).1⟩

theorem roundHalfEven_intCast (n : ℤ) : roundHalfEven (n : ℚ) = n := by
  unfold roundHalfEven
  simp [Int.floor_intCast]

theorem round2_idem (q : ℚ) : round2 (round2 q) = round2 q := by
  unfold round2
  rw [div_mul_cancel₀ _ (by norm_num : (100 : ℚ) ≠ 0), roundHalfEven_intCast]

/-- An output cell is either absent or a value already rounded to 2
decimals (a fixed point of `round2`). -/
def roundedOpt (v : Option ℚ) : Prop :=
  ∀ q, v = some q → round2 q = q

theorem roundedOpt_safe_round (v : Option ℚ) : roundedOpt (safe_round v) := by
  intro q hq
  cases v with
  | none => simp [safe_round] at hq
  | some x =>
    simp only [safe_round, Option.map_some', Option.some.injEq] at hq
    rw [← hq]
    exact round2_idem x

/-- C9: every derived numeric field of every Indicator Engine output row
(open, high, low, close, the three moving averages, RSI, MACD, Signal) is
either absent or a finite rational already rounded to 2 decimals: each
crosses the boundary through `safe_round`, which sends a missing
(non-finite) value to `none` and rounds a finite one. -/
theorem c9_output_fields_rounded (rows : List PriceRow) (r : IndicatorRow)
    (hr : r ∈ get_historical_data rows) :
    roundedOpt r.openPx ∧ roundedOpt r.high ∧ roundedOpt r.low ∧
    roundedOpt r.close ∧ roundedOpt r.ma7 ∧ roundedOpt r.ma20 ∧
    roundedOpt r.ma50 ∧ roundedOpt r.rsi ∧ roundedOpt r.macd ∧
    roundedOpt r.signal := by
  unfold get_historical_data at hr
  by_cases he : rows.isEmpty
  · rw [if_pos he] at hr
    simp at hr
  · rw [if_neg he] at hr
    obtain ⟨i, -, rfl⟩ := List.mem_map.mp hr
    exact ⟨roundedOpt_safe_round _, roundedOpt_safe_round _,
      roundedOpt_safe_round _, roundedOpt_safe_round _, roundedOpt_safe_round _,
      roundedOpt_safe_round _, roundedOpt_safe_round _, roundedOpt_safe_round _,
      roundedOpt_safe_round _, roundedOpt_safe_round _⟩

/-- A one-row fixture with a close of 1/3 (so rounding is exercised) and
missing high/volume cells. -/
def c9Rows : List PriceRow := [⟨0, some (1 / 3), none, some (5 / 2), some 2, none⟩]

/-- C9 witness: the first output row of the one-row fixture. -/
theorem c9_output_fields_rounded_witness :
    ((get_historical_data c9Rows).getD 0 dIndicatorRow ∈ get_historical_data c9Rows) ∧
      (roundedOpt ((get_historical_data c9Rows).getD 0 dIndicatorRow).openPx ∧
      roundedOpt ((get_historical_data c9Rows).getD 0 dIndicatorRow).high ∧
      roundedOpt ((get_historical_data c9Rows).getD 0 dIndicatorRow).low ∧
      roundedOpt ((get_historical_data c9Rows).getD 0 dIndicatorRow).close ∧
      roundedOpt ((get_historical_data c9Rows).getD 0 dIndicatorRow).ma7 ∧
      roundedOpt ((get_historical_data c9Rows).getD 0 dIndicatorRow).ma20 ∧
      roundedOpt ((get_historical_data c9Rows).getD 0 dIndicatorRow).ma50 ∧
      roundedOpt ((get_historical_data c9Rows).getD 0 dIndicatorRow).rsi ∧
      roundedOpt ((get_historical_data c9Rows).getD 0 dIndicatorRow).macd ∧
      roundedOpt ((get_historical_data c9Rows).getD 0 dIndicatorRow).signal) :=
  ⟨by with_unfolding_all decide,
    c9_output_fields_rounded c9Rows _ (by with_unfolding_all decide)⟩

/-- C6: the Regression Forecaster returns the no-forecast result for every
input of fewer than 30 raw rows, and for every input whose cleaned feature
rows (close, volume and 5-day moving average all defined) number fewer
than 20. -/
theorem c6_insufficient_data (today : ℕ) (rows : List PredRow) (days : ℕ)
    (h : rows.length < 30 ∨ (cleanRows rows).length < 20) :
    predict_prices today rows days = none := by
  unfold predict_prices
  by_cases h30 : rows.length < 30
  · rw [if_pos h30]
  · rw [if_neg h30]
    have h20 : (cleanRows rows).length < 20 := by
      rcases h with h | h
      · exact absurd h h30
      · exact h
    simp only [h20, if_true]

/-- C6 witness: 30 rows whose closes are all missing clean down to zero
rows, so the second threshold fires. -/
theorem c6_insufficient_data_witness :
    ((List.replicate 30 (⟨none, some 1⟩ : PredRow)).length < 30 ∨
      (cleanRows (List.replicate 30 (⟨none, some 1⟩ : PredRow))).length < 20) ∧
      predict_prices 0 (List.replicate 30 (⟨none, some 1⟩ : PredRow)) 7 = none :=
  ⟨Or.inr (by with_unfolding_all decide),
    c6_insufficient_data 0 _ 7 (Or.inr (by with_unfolding_all decide))⟩

theorem forecastAux_length (M : LinModel) (sD sV sM sy : Scaler)
    (lastDay : ℕ) (lastVol : ℚ) (today : ℕ) (i steps : ℕ) (ma : ℚ) :
    (forecastAux M sD sV sM sy lastDay lastVol today i steps ma).length = steps := by
  induction steps generalizing i ma with
  | zero => rfl
  | succ n ih => simp [forecastAux, ih]

theorem forecastAux_getD_date (M : LinModel) (sD sV sM sy : Scaler)
    (lastDay : ℕ) (lastVol : ℚ) (today : ℕ) (i steps : ℕ) (ma : ℚ)
    (k : ℕ) (hk : k < steps) :
    ((forecastAux M sD sV sM sy lastDay lastVol today i steps ma).getD k
      ⟨0, none⟩).date = today + i + k := by
  induction steps generalizing i ma k with
  | zero => omega
  | succ n ih =>
    cases k with
    | zero => rfl
    | succ j =>
      have hj : j < n := by omega
      show ((forecastAux M sD sV sM sy lastDay lastVol today (i + 1) n _).getD j
        ⟨0, none⟩).date = today + i + (j + 1)
      rw [ih (i + 1) _ j hj]
      omega

theorem forecastAux_mem_price (M : LinModel) (sD sV sM sy : Scaler)
    (lastDay : ℕ) (lastVol : ℚ) (today : ℕ) (i steps : ℕ) (ma : ℚ)
    (p : ForecastPoint)
    (hp : p ∈ forecastAux M sD sV sM sy lastDay lastVol today i steps ma) :
    ∃ q, p.predictedPrice = some (round2 q) := by
  induction steps generalizing i ma with
  | zero => simp [forecastAux] at hp
  | succ n ih =>
    rw [forecastAux] at hp
    rcases List.mem_cons.mp hp with h | h
    · exact ⟨_, by rw [h]⟩
    · exact ih _ _ h

theorem roundHalfEven_nonneg (q : ℚ) (h : 0 ≤ q) : 0 ≤ roundHalfEven q := by
  unfold roundHalfEven
  dsimp only
  have hf : 0 ≤ ⌊q⌋ := Int.floor_nonneg.mpr h
  split_ifs <;> omega

theorem roundHalfEven_le_of_le (q : ℚ) (B : ℤ) (h : q ≤ B) :
    roundHalfEven q ≤ B := by
  unfold roundHalfEven
  dsimp only
  have hfB : ⌊q⌋ ≤ B := by
    have := Int.floor_le_floor h
    simpa using this
  split_ifs with h1 h2 h3
  · exact hfB
  · have hq : (⌊q⌋ : ℚ) < q - 1/2 := by linarith
    have : (⌊q⌋ : ℚ) < (B : ℚ) - 1/2 := by linarith
    have : (⌊q⌋ : ℚ) < (B : ℚ) := by linarith
    exact_mod_cast by exact_mod_cast Int.lt_iff_add_one_le.mp (by exact_mod_cast this)
  · exact hfB
  · have heq : q - ⌊q⌋ = 1/2 := le_antisymm (not_lt.mp h2) (not_lt.mp h1)
    have : (⌊q⌋ : ℚ) = q - 1/2 := by linarith
    have hlt : (⌊q⌋ : ℚ) < (B : ℚ) := by
      rw [this]
      linarith
    exact Int.lt_iff_add_one_le.mp (by exact_mod_cast hlt)

theorem round2_nonneg (x : ℚ) (h : 0 ≤ x) : 0 ≤ round2 x := by
  unfold round2
  have : (0 : ℤ) ≤ roundHalfEven (x * 100) :=
    roundHalfEven_nonneg _ (by positivity)
  positivity

theorem round2_le_hundred (x : ℚ) (h : x ≤ 100) : round2 x ≤ 100 := by
  unfold round2
  have h1 : x * 100 ≤ ((10000 : ℤ) : ℚ) := by push_cast; linarith
  have h2 : roundHalfEven (x * 100) ≤ 10000 := roundHalfEven_le_of_le _ _ h1
  have h3 : ((roundHalfEven (x * 100)) : ℚ) ≤ 10000 := by exact_mod_cast h2
  linarith

/-- C7: every successful forecast for horizon `days` has exactly `days`
points, chronological with dates `today+1` through `today+days`, every
predicted price a finite value rounded to 2 decimals, a confidence in
[0,100], and the model-identifier string "Linear Regression". -/
theorem c7_forecast_result_shape (today : ℕ) (rows : List PredRow) (days : ℕ)
    (r : ForecastResult) (h : predict_prices today rows days = some r) :
    r.predictions.length = days ∧
    (∀ k, k < days → (r.predictions.getD k ⟨0, none⟩).date = today + k + 1) ∧
    (∀ p ∈ r.predictions, ∃ q, p.predictedPrice = some (round2 q)) ∧
    (∃ c, r.confidence = some c ∧ 0 ≤ c ∧ c ≤ 100) ∧
    r.model = "Linear Regression" := by
  unfold predict_prices at h
  by_cases h30 : rows.length < 30
  · rw [if_pos h30] at h
    exact absurd h (by simp)
  · rw [if_neg h30] at h
    by_cases h20 : (cleanRows rows).length < 20
    · simp only [h20, if_true] at h
      exact absurd h (by simp)
    · simp only [h20, if_false] at h
      rw [Option.some_inj] at h
      subst h
      refine ⟨forecastAux_length _ _ _ _ _ _ _ _ _ _ _, ?_, ?_, ?_, rfl⟩
      · intro k hk
        rw [forecastAux_getD_date _ _ _ _ _ _ _ _ 1 days _ k hk]
        omega
      · intro p hp
        exact forecastAux_mem_price _ _ _ _ _ _ _ _ 1 days _ p hp
      · refine ⟨_, rfl, ?_, ?_⟩
        · exact round2_nonneg _ (le_max_left 0 _)
        · exact round2_le_hundred _ (max_le (by norm_num) (min_le_left 100 _))

/-- A 35-row constant fixture (close 100, volume 50) on which the
forecaster succeeds and predicts the constant price. -/
def c7Rows : List PredRow := List.replicate 35 ⟨some 100, some 50⟩

/-- The forecast the fixture produces for horizon 3 from day 0. -/
def c7Result : ForecastResult :=
  ⟨[⟨1, some 100⟩, ⟨2, some 100⟩, ⟨3, some 100⟩], some 100, "Linear Regression"⟩

set_option maxRecDepth 100000 in
/-- C7 witness: the fixture's 3-day forecast has the claimed shape. -/
theorem c7_forecast_result_shape_witness :
    predict_prices 0 c7Rows 3 = some c7Result ∧
      (c7Result.predictions.length = 3 ∧
      (∀ k, k < 3 → (c7Result.predictions.getD k ⟨0, none⟩).date = 0 + k + 1) ∧
      (∀ p ∈ c7Result.predictions, ∃ q, p.predictedPrice = some (round2 q)) ∧
      (∃ c, c7Result.confidence = some c ∧ 0 ≤ c ∧ c ≤ 100) ∧
      c7Result.model = "Linear Regression") :=
  ⟨by with_unfolding_all decide,
    c7_forecast_result_shape 0 c7Rows 3 c7Result (by with_unfolding_all decide)⟩
